import Mathlib

/-!
Verification development for the StravaTalk repository.

The development shallowly embeds the tenant-scoped SQL gateway
(`stravatalk/utils/db_utils.py`: `inject_athlete_filter`,
`execute_sql_query`), the webhook activity reconciler
(`stravatalk/webhook_handler.py`: `handle_activity_create`,
`handle_activity_update`) and the token lifecycle helpers
(`refresh_user_token`, `get_valid_access_token`).

SQL text is modelled as `List Char`.  The Python regular-expression
operations used by the source (`re.sub(r'\bWHERE\b', ...)`,
`re.search(r'\s+(ORDER\s+BY|GROUP\s+BY|HAVING|LIMIT)\s+', ...)`,
`re.search(r'\b(COUNT|SUM|AVG|MIN|MAX|GROUP\s+BY)\b', ...)`) are modelled
by explicit left-to-right index scans, which agree with `re`'s leftmost
match rule.
-/

namespace StravaTalk

/-- Characters of a string literal. -/
def str (s : String) : List Char := s.data

/-- Python `str.strip` whitespace class (ASCII part). -/
def isSpaceChar (c : Char) : Bool :=
  c = ' ' || c = '\t' || c = '\n' || c = '\r' || c = '\x0b' || c = '\x0c'

/-- `str.upper`, character-wise (ASCII, as in the SQL text involved). -/
def upperL (s : List Char) : List Char := s.map Char.toUpper

/-- `str.lower`, character-wise. -/
def lowerL (s : List Char) : List Char := s.map Char.toLower

/-- Remove characters satisfying `p` from the right end. -/
def rstripP (p : Char → Bool) (s : List Char) : List Char :=
  (s.reverse.dropWhile p).reverse

/-- Python `str.strip()`. -/
def strip (s : List Char) : List Char :=
  rstripP isSpaceChar (s.dropWhile isSpaceChar)

/-- Python `.rstrip(";")` (removes every trailing semicolon). -/
def rstripSemi (s : List Char) : List Char := rstripP (· = ';') s

/-- Case-sensitive occurrence of `pat` at index `i` of `s`. -/
def isSubAt (pat s : List Char) (i : Nat) : Bool :=
  (s.drop i).take pat.length == pat

/-- Python `pat in s` (substring containment). -/
def containsSub (pat s : List Char) : Bool :=
  (List.range (s.length + 1)).any (isSubAt pat s)

/-- Case-insensitive occurrence of the (uppercase) `pat` at index `i`. -/
def iStrAt (pat s : List Char) (i : Nat) : Bool :=
  upperL ((s.drop i).take pat.length) == pat

/-- Regex word character `\w` (ASCII). -/
def isWordChar (c : Char) : Bool := c.isAlphanum || c = '_'

/-- Regex word boundary `\b` holds just before index `i` of `s`
(the matched text itself starting with a word character). -/
def boundaryBefore (s : List Char) (i : Nat) : Bool :=
  i = 0 || !isWordChar (s.getD (i - 1) 'x')

/-- Regex word boundary `\b` holds just after the match ending at index `j`
(the matched text ending with a word character). -/
def boundaryAfter (s : List Char) (j : Nat) : Bool :=
  decide (s.length ≤ j) || !isWordChar (s.getD j ' ')

/-- End index of the maximal whitespace run starting at `i`. -/
def spacesEnd (s : List Char) (i : Nat) : Nat :=
  i + ((s.drop i).takeWhile isSpaceChar).length

/-- A `\bWHERE\b` match (case-insensitive) starting at index `i`. -/
def whereWordAt (s : List Char) (i : Nat) : Bool :=
  iStrAt (str "WHERE") s i && boundaryBefore s i && boundaryAfter s (i + 5)

/-- First index at which `p` holds, scanning `fuel` indices from `i`. -/
def firstIdxFrom (p : Nat → Bool) : Nat → Nat → Option Nat
  | 0, _ => none
  | fuel + 1, i => if p i then some i else firstIdxFrom p fuel (i + 1)

/-- Leftmost index at which `p` holds, among `0, ..., n - 1`. -/
def firstMatchIdx (p : Nat → Bool) (n : Nat) : Option Nat :=
  firstIdxFrom p n 0

/-- Leftmost `\bWHERE\b` match position (`re.search` / `re.sub` scan). -/
def firstWhereIdx (s : List Char) : Option Nat :=
  firstMatchIdx (whereWordAt s) (s.length + 1)

/-- `re.sub(r'\bWHERE\b', 'WHERE athlete_id = %s AND', s, count=1,
flags=re.IGNORECASE)`: replace the leftmost word-`WHERE` only. -/
def subWhereOnce (s : List Char) : List Char :=
  match firstWhereIdx s with
  | none => s
  | some i => s.take i ++ str "WHERE athlete_id = %s AND" ++ s.drop (i + 5)

/-- Match one keyword alternative (optionally two words separated by
`\s+`) case-insensitively at index `j`; returns the end index. -/
def kwEnd (s : List Char) (j : Nat) (w1 : List Char) (w2 : Option (List Char)) :
    Option Nat :=
  if iStrAt w1 s j then
    match w2 with
    | none => some (j + w1.length)
    | some w =>
      let k := spacesEnd s (j + w1.length)
      if j + w1.length < k && iStrAt w s k then some (k + w.length) else none
  else none

/-- The alternation `ORDER\s+BY|GROUP\s+BY|HAVING|LIMIT` at index `j`. -/
def clauseAltEnd (s : List Char) (j : Nat) : Option Nat :=
  match kwEnd s j (str "ORDER") (some (str "BY")) with
  | some e => some e
  | none =>
    match kwEnd s j (str "GROUP") (some (str "BY")) with
    | some e => some e
    | none =>
      match kwEnd s j (str "HAVING") none with
      | some e => some e
      | none => kwEnd s j (str "LIMIT") none

/-- A match of `\s+(ORDER\s+BY|GROUP\s+BY|HAVING|LIMIT)\s+` starting at
index `i`.  The keyword begins with a non-space, so it can only start at
the end of the whitespace run beginning at `i`. -/
def clauseMatchAt (s : List Char) (i : Nat) : Bool :=
  isSpaceChar (s.getD i 'x') &&
    match clauseAltEnd s (spacesEnd s i) with
    | some e => isSpaceChar (s.getD e 'x')
    | none => false

/-- Leftmost match position of the trailing-clause pattern. -/
def firstClauseIdx (s : List Char) : Option Nat :=
  firstMatchIdx (clauseMatchAt s) (s.length + 1)

/-- A `\b(COUNT|SUM|AVG|MIN|MAX|GROUP\s+BY)\b` match starting at `i`. -/
def aggWordAt (s : List Char) (i : Nat) : Bool :=
  boundaryBefore s i &&
    ((iStrAt (str "COUNT") s i && boundaryAfter s (i + 5)) ||
     (iStrAt (str "SUM") s i && boundaryAfter s (i + 3)) ||
     (iStrAt (str "AVG") s i && boundaryAfter s (i + 3)) ||
     (iStrAt (str "MIN") s i && boundaryAfter s (i + 3)) ||
     (iStrAt (str "MAX") s i && boundaryAfter s (i + 3)) ||
     (iStrAt (str "GROUP") s i &&
       (let k := spacesEnd s (i + 5)
        i + 5 < k && iStrAt (str "BY") s k && boundaryAfter s (k + 2))))

/-- `is_aggregate_query` (db_utils.py line 39). -/
def isAggregate (s : List Char) : Bool :=
  (List.range (s.length + 1)).any (aggWordAt s)

/-- db_utils.py lines 41-63: the aggregate branch of
`inject_athlete_filter` (given the cleaned query).  The filter and
parameter it produces. -/
def aggregateBranch (s : List Char) (athleteId : Nat) : List Char × List Nat :=
  if containsSub (str "WHERE") (upperL s) then
    (subWhereOnce s, [athleteId])
  else
    match firstClauseIdx s with
    | some i => (s.take i ++ str " WHERE athlete_id = %s" ++ s.drop i, [athleteId])
    | none => (s ++ str " WHERE athlete_id = %s", [athleteId])

/-- db_utils.py lines 65-88: the non-aggregate (row-level) branch of
`inject_athlete_filter`.  The source duplicates the aggregate branch's
code verbatim. -/
def rowLevelBranch (s : List Char) (athleteId : Nat) : List Char × List Nat :=
  if containsSub (str "WHERE") (upperL s) then
    (subWhereOnce s, [athleteId])
  else
    match firstClauseIdx s with
    | some i => (s.take i ++ str " WHERE athlete_id = %s" ++ s.drop i, [athleteId])
    | none => (s ++ str " WHERE athlete_id = %s", [athleteId])

/-- db_utils.py lines 14-88, `inject_athlete_filter(sql_query, athlete_id)`.
`athleteId = 0` models a Python-falsy `athlete_id`.  The unused
`select_match` regex of line 36 has no effect and is omitted.  Athlete ids
are passed out as the parameter tuple, never interpolated. -/
def inject_athlete_filter (sql : List Char) (athleteId : Nat) :
    List Char × List Nat :=
  if athleteId = 0 || !((str "SELECT").isPrefixOf (upperL (strip sql))) then
    (sql, [])
  else if !containsSub (str "activities") (lowerL sql) then
    (sql, [])
  else
    let cleaned := rstripSemi (strip sql)
    if isAggregate cleaned then aggregateBranch cleaned athleteId
    else rowLevelBranch cleaned athleteId

/-! ## Database rows

One row of the `activities` table (schema used by the webhook handler's
INSERT and by `ACTIVITIES_DESCRIPTION` in db_utils.py). -/

structure Activity where
  id : Nat
  athlete_id : Nat
  name : String
  distance : Int
  moving_time : Int
  elapsed_time : Int
  total_elevation_gain : Int
  type : String
  start_date : String
deriving DecidableEq

/-! ## Query executor model

`execute_sql_query` sends the final SQL text to PostgreSQL.  To give the
claims about it a semantics we interpret a fragment of SQL over
`List Activity`: single or semicolon-separated statements of the shapes
`SELECT <cols> FROM activities [WHERE <conjunction>]`,
`DELETE FROM activities [WHERE <conjunction>]` and
`DROP TABLE activities`, where a conjunction is a list of atoms joined by
` AND `.  An atom is the enforced placeholder predicate
`athlete_id = %s`, a literal `athlete_id = <n>`, or any other text,
interpreted by an oracle valuation `ov` (PostgreSQL's semantics for
predicates the model does not analyse).  Text outside this fragment makes
the model report a database error (state unchanged), as the driver
would. -/

inductive Atom where
  | eqParam : Atom
  | eqLit : Nat → Atom
  | other : List Char → Atom
deriving DecidableEq

inductive Stmt where
  | select : List Char → Option (List Atom) → Stmt
  | deleteAll : Option (List Atom) → Stmt
  | dropTable : Stmt
deriving DecidableEq

/-- Leftmost case-sensitive occurrence of `sep` in `s`. -/
def firstOccIdx (sep s : List Char) : Option Nat :=
  firstMatchIdx (isSubAt sep s) (s.length + 1)

/-- Split on every occurrence of `sep`, fuelled version. -/
def splitOnSubFuel (sep : List Char) : Nat → List Char → List (List Char)
  | 0, s => [s]
  | fuel + 1, s =>
    match firstOccIdx sep s with
    | none => [s]
    | some i => s.take i :: splitOnSubFuel sep fuel (s.drop (i + sep.length))

/-- Split `s` on every occurrence of `sep`. -/
def splitOnSub (sep s : List Char) : List (List Char) :=
  splitOnSubFuel sep (s.length + 1) s

/-- Numeric value of a digit string. -/
def digitsToNat (s : List Char) : Nat :=
  s.foldl (fun n c => n * 10 + (c.toNat - 48)) 0

/-- Parse one conjunct. -/
def parseAtom (p : List Char) : Atom :=
  if p == str "athlete_id = %s" then Atom.eqParam
  else if (str "athlete_id = ").isPrefixOf p && p.length > 13 &&
      (p.drop 13).all Char.isDigit then
    Atom.eqLit (digitsToNat (p.drop 13))
  else Atom.other p

/-- Parse a `WHERE` conjunction. -/
def parseCond (c : List Char) : List Atom :=
  (splitOnSub (str " AND ") c).map parseAtom

/-- Parse one statement of the modelled fragment. -/
def parseStmt (s0 : List Char) : Option Stmt :=
  let s := strip s0
  if (str "SELECT ").isPrefixOf s then
    match firstOccIdx (str " FROM activities") s with
    | none => none
    | some i =>
      let cols := (s.drop 7).take (i - 7)
      let rest := s.drop (i + 16)
      if rest == ([] : List Char) then some (Stmt.select cols none)
      else if (str " WHERE ").isPrefixOf rest then
        some (Stmt.select cols (some (parseCond (rest.drop 7))))
      else none
  else if s == str "DELETE FROM activities" then some (Stmt.deleteAll none)
  else if (str "DELETE FROM activities WHERE ").isPrefixOf s then
    some (Stmt.deleteAll (some (parseCond (s.drop 29))))
  else if s == str "DROP TABLE activities" then some Stmt.dropTable
  else none

/-- Split the SQL text on `;` and parse every non-empty statement
(PostgreSQL parses the whole multi-statement string up front). -/
def pipelineParse (s : List Char) : Option (List Stmt) :=
  ((splitOnSub (str ";") s).filter (fun p => !(strip p).isEmpty)).mapM parseStmt

/-- Substitute bound parameters for `%s` placeholders, left to right
(psycopg2 formats parameters into the statement client-side); `none` on a
placeholder/parameter count mismatch, which raises in the driver. -/
def bindAtoms : List Atom → List Nat → Option (List Atom × List Nat)
  | [], ps => some ([], ps)
  | Atom.eqParam :: rest, p :: ps =>
    (bindAtoms rest ps).map (fun r => (Atom.eqLit p :: r.1, r.2))
  | Atom.eqParam :: _, [] => none
  | a :: rest, ps => (bindAtoms rest ps).map (fun r => (a :: r.1, r.2))

def bindStmt (stmt : Stmt) (ps : List Nat) : Option (Stmt × List Nat) :=
  match stmt with
  | Stmt.select cols (some c) =>
    (bindAtoms c ps).map (fun r => (Stmt.select cols (some r.1), r.2))
  | Stmt.deleteAll (some c) =>
    (bindAtoms c ps).map (fun r => (Stmt.deleteAll (some r.1), r.2))
  | s => some (s, ps)

def bindStmtsAux : List Stmt → List Nat → Option (List Stmt × List Nat)
  | [], ps => some ([], ps)
  | stmt :: rest, ps =>
    match bindStmt stmt ps with
    | none => none
    | some (b, ps') =>
      (bindStmtsAux rest ps').map (fun r => (b :: r.1, r.2))

/-- Bind all parameters; every parameter must be consumed. -/
def bindStmts (stmts : List Stmt) (ps : List Nat) : Option (List Stmt) :=
  match bindStmtsAux stmts ps with
  | some (bs, []) => some bs
  | _ => none

/-- Evaluate one (bound) atom on a row; `ov` interprets opaque text. -/
def evalAtom (ov : List Char → Activity → Bool) : Atom → Activity → Bool
  | Atom.eqParam, _ => false
  | Atom.eqLit n, r => r.athlete_id == n
  | Atom.other t, r => ov t r

/-- Evaluate a conjunction on a row. -/
def evalCond (ov : List Char → Activity → Bool) (atoms : List Atom)
    (r : Activity) : Bool :=
  atoms.all (fun a => evalAtom ov a r)

/-- Table state: `none` models a dropped `activities` table. -/
abbrev TableSt := Option (List Activity)

/-- Run one statement: new state plus the statement's result set
(`cursor.description` presence); `none` models a runtime database
error. -/
def runStmt (ov : List Char → Activity → Bool) (st : TableSt) :
    Stmt → Option (TableSt × Option (List Activity))
  | Stmt.select _ cond =>
    match st with
    | none => none
    | some rows => some (st, some (rows.filter (evalCond ov (cond.getD []))))
  | Stmt.deleteAll cond =>
    match st with
    | none => none
    | some rows =>
      some (some (rows.filter (fun r => !evalCond ov (cond.getD []) r)), none)
  | Stmt.dropTable =>
    match st with
    | none => none
    | some _ => some (none, none)

/-- Run the statements in order; the returned result set is the last
statement's (psycopg2 exposes only the last `description`). -/
def runStmts (ov : List Char → Activity → Bool) :
    TableSt → List Stmt → Option (TableSt × Option (List Activity))
  | _, [] => none
  | st, [stmt] => runStmt ov st stmt
  | st, stmt :: rest =>
    match runStmt ov st stmt with
    | none => none
    | some (st', _) => runStmts ov st' rest

/-- Outcome of `execute_sql_query`: the returned success flag and rows,
and the database state after the call. -/
structure ExecOut where
  success : Bool
  rows : Option (List Activity)
  db : TableSt
deriving DecidableEq

/-- The rewrite step of `execute_sql_query` (db_utils.py lines 177-180):
when `athlete_id` is truthy the query goes through
`inject_athlete_filter`, otherwise it is passed through unchanged. -/
def injectStep (sql : List Char) (athleteId : Nat) : List Char × List Nat :=
  if athleteId ≠ 0 then inject_athlete_filter sql athleteId else (sql, [])

/-- Whether the last statement of a parsed statement list is a `SELECT`
(`none` counts as vacuously true: nothing executes). -/
def lastIsSelectL (stmts : List Stmt) : Bool :=
  match stmts.getLast? with
  | some (Stmt.select _ _) => true
  | _ => false

def lastIsSelect : Option (List Stmt) → Bool
  | none => true
  | some stmts => lastIsSelectL stmts

/-- The parameter-bound statement list `execute_sql_query` will run for a
given call (`none` when parsing or binding fails and nothing runs). -/
def boundPipeline (sql : List Char) (athleteId : Nat)
    (queryParams : List Nat) : Option (List Stmt) :=
  match pipelineParse (injectStep sql athleteId).1 with
  | none => none
  | some stmts => bindStmts stmts (queryParams ++ (injectStep sql athleteId).2)

/-- db_utils.py lines 151-206, `execute_sql_query(sql_query, athlete_id,
query_params)` against database content `db`.  Faithful control flow:
when `athlete_id` is truthy the query is first rewritten by
`inject_athlete_filter` and the athlete parameters are appended to
`query_params`; the statement executes inside an ordinary (not read-only)
transaction; if the cursor has a `description` the rows are fetched and
the transaction is never committed (so closing the connection rolls back
any earlier writes), otherwise `conn.commit()` is executed; driver errors
roll back and report failure. -/
def execute_sql_query (sql : List Char) (athleteId : Nat)
    (queryParams : List Nat) (db : List Activity)
    (ov : List Char → Activity → Bool) : ExecOut :=
  let step : List Char × List Nat := injectStep sql athleteId
  let params := queryParams ++ step.2
  match pipelineParse step.1 with
  | none => ⟨false, none, some db⟩
  | some stmts =>
    match bindStmts stmts params with
    | none => ⟨false, none, some db⟩
    | some bound =>
      match runStmts ov (some db) bound with
      | none => ⟨false, none, some db⟩
      | some (st', desc) =>
        match desc with
        | some rows => ⟨true, some rows, some db⟩
        | none => ⟨true, none, st'⟩

/-! ## Structured candidate queries

A structured form of the single-`SELECT`-over-`activities` candidates,
used to state what the string rewriting of `inject_athlete_filter` does:
`SELECT <cols> FROM activities [WHERE <cond>] [<tail>]` (the optional
tail being a trailing `ORDER BY`/`GROUP BY`/`HAVING`/`LIMIT` clause
text). -/

structure CandQ where
  cols : List Char
  cond : Option (List Char)
  tail : Option (List Char)
deriving DecidableEq

/-- Rendered `WHERE` clause of a structured candidate. -/
def condPart : Option (List Char) → List Char
  | none => []
  | some c => str " WHERE " ++ c

/-- Rendered tail clause of a structured candidate. -/
def tailPart : Option (List Char) → List Char
  | none => []
  | some tl => ' ' :: tl

/-- The SQL text of a structured candidate. -/
def renderQ (q : CandQ) : List Char :=
  str "SELECT " ++ q.cols ++ str " FROM activities" ++ condPart q.cond ++
    tailPart q.tail

/-- The insertion policy at the structured level: conjoin the enforced
predicate at the front of the `WHERE` clause, creating the clause if
absent (before the tail clause when one exists). -/
def injQ (q : CandQ) : CandQ :=
  { q with
    cond := some (match q.cond with
      | none => str "athlete_id = %s"
      | some c => str "athlete_id = %s AND " ++ c) }

/-! ## Activity reconciler (webhook_handler.py)

`handle_activity_create` fetches the activity resource and performs
`INSERT ... ON CONFLICT (id) DO UPDATE` stamping the webhook's
`owner_id` as `athlete_id`; `handle_activity_update` builds an `UPDATE`
from the `title`/`type` entries of the event's `updates` map, scoped to
`WHERE id = %s AND athlete_id = %s`.  The models act on the table
content; token lookup and the HTTP fetch that precede the insert are
outside the reconciliation step the claims are about. -/

/-- The fetched Strava activity resource (fields read from the JSON). -/
structure FetchedActivity where
  id : Nat
  name : String
  distance : Int
  moving_time : Int
  elapsed_time : Int
  total_elevation_gain : Int
  type : String
  start_date : String
deriving DecidableEq

/-- The row the create handler writes: resource fields plus the
event's `owner_id` as `athlete_id` (webhook_handler.py lines 96-106). -/
def activityRow (act : FetchedActivity) (ownerId : Nat) : Activity :=
  { id := act.id
    athlete_id := ownerId
    name := act.name
    distance := act.distance
    moving_time := act.moving_time
    elapsed_time := act.elapsed_time
    total_elevation_gain := act.total_elevation_gain
    type := act.type
    start_date := act.start_date }

/-- `INSERT ... ON CONFLICT (id) DO UPDATE SET ...`: replace the row
with the same `id` if present, else append. -/
def upsertActivity (db : List Activity) (r : Activity) : List Activity :=
  if db.any (fun x => x.id == r.id) then
    db.map (fun x => if x.id == r.id then r else x)
  else db ++ [r]

/-- webhook_handler.py lines 57-112, `handle_activity_create` given the
fetched resource (the database write it commits). -/
def handle_activity_create (db : List Activity) (act : FetchedActivity)
    (ownerId : Nat) : List Activity :=
  upsertActivity db (activityRow act ownerId)

/-- The `updates` map of an activity `update` event, restricted to the
keys the handler reads (`title`, `type`); other keys are ignored by the
source. -/
structure ActivityUpdates where
  title : Option String
  type : Option String
deriving DecidableEq

/-- webhook_handler.py lines 114-144, `handle_activity_update`: a dynamic
`UPDATE activities SET ... WHERE id = %s AND athlete_id = %s`, executed
only when at least one recognised field is present. -/
def handle_activity_update (db : List Activity) (activityId ownerId : Nat)
    (u : ActivityUpdates) : List Activity :=
  if u.title.isNone && u.type.isNone then db
  else
    db.map (fun x =>
      if x.id == activityId && x.athlete_id == ownerId then
        { x with name := u.title.getD x.name, type := u.type.getD x.type }
      else x)

/-! ## Token lifecycle (db_utils.py lines 294-408)

`user_tokens` rows and the refresh flow.  The Strava token endpoint's
response is modelled as `Option TokenResponse`: `some` for a 200 response
with the new credential material, `none` for any non-200 response. -/

structure UserToken where
  athlete_id : Nat
  access_token : String
  refresh_token : String
  expires_at : Int
deriving DecidableEq

structure TokenResponse where
  access_token : String
  refresh_token : String
  expires_at : Int
deriving DecidableEq

/-- `SELECT ... FROM user_tokens WHERE athlete_id = %s` with
`fetchone()`. -/
def findToken (db : List UserToken) (a : Nat) : Option UserToken :=
  db.find? (fun r => r.athlete_id == a)

/-- The single `UPDATE user_tokens SET access_token, refresh_token,
expires_at WHERE athlete_id = %s` of a successful refresh. -/
def updateToken (db : List UserToken) (a : Nat) (td : TokenResponse) :
    List UserToken :=
  db.map (fun r =>
    if r.athlete_id == a then
      { r with
        access_token := td.access_token
        refresh_token := td.refresh_token
        expires_at := td.expires_at }
    else r)

/-- db_utils.py lines 294-361, `refresh_user_token(athlete_id)`: returns
the success flag, the database after the call, and the number of network
calls to the token endpoint it made. -/
def refresh_user_token (db : List UserToken) (a : Nat)
    (resp : Option TokenResponse) : Bool × List UserToken × Nat :=
  match findToken db a with
  | none => (false, db, 0)
  | some _ =>
    match resp with
    | some td => (true, updateToken db a td, 1)
    | none => (false, db, 1)

/-- db_utils.py lines 364-408, `get_valid_access_token(athlete_id)` at
current time `now`: returns the token (or `none`), the database after the
call, and the number of network refresh calls made. -/
def get_valid_access_token (db : List UserToken) (a : Nat) (now : Int)
    (resp : Option TokenResponse) : Option String × List UserToken × Nat :=
  match findToken db a with
  | none => (none, db, 0)
  | some row =>
    if row.expires_at < now then
      match refresh_user_token db a resp with
      | (true, db', k) => ((findToken db' a).map (fun r => r.access_token), db', k)
      | (false, db', k) => (none, db', k)
    else (some row.access_token, db, 0)

/-! ## Concurrent refresh interleavings

Two callers running `get_valid_access_token` for the same athlete are
modelled as small-step programs over a shared database plus a network
call counter.  Each caller's steps mirror the source's statement order:
read the token row and test expiry, read the refresh token, call the
token endpoint, commit the `UPDATE`, re-read the access token.  The
source takes no lock and its `UPDATE` is keyed on `athlete_id` alone, so
no step couples the write to the expiry value that was read. -/

structure CallerSt where
  pc : Nat
  resp : Option TokenResponse
  ret : Option (Option String)
deriving DecidableEq

structure SharedSt where
  db : List UserToken
  calls : Nat
deriving DecidableEq

/-- One atomic step of a caller.  `respAt k` is the token endpoint's
response to the `k`-th network call overall. -/
def stepCaller (a : Nat) (now : Int) (respAt : Nat → TokenResponse)
    (c : CallerSt) (sh : SharedSt) : CallerSt × SharedSt :=
  match c.pc with
  | 0 =>
    match findToken sh.db a with
    | none => ({ c with pc := 5, ret := some none }, sh)
    | some row =>
      if row.expires_at < now then ({ c with pc := 1 }, sh)
      else ({ c with pc := 5, ret := some (some row.access_token) }, sh)
  | 1 =>
    match findToken sh.db a with
    | none => ({ c with pc := 5, ret := some none }, sh)
    | some _ => ({ c with pc := 2 }, sh)
  | 2 =>
    ({ c with pc := 3, resp := some (respAt sh.calls) },
      { sh with calls := sh.calls + 1 })
  | 3 =>
    match c.resp with
    | some td => ({ c with pc := 4 }, { sh with db := updateToken sh.db a td })
    | none => ({ c with pc := 5, ret := some none }, sh)
  | 4 =>
    let tok := (findToken sh.db a).map (fun r => r.access_token)
    ({ c with pc := 5, ret := some tok }, sh)
  | _ => (c, sh)

/-- Run a schedule: `true` steps the first caller, `false` the second. -/
def runSched (a : Nat) (now : Int) (respAt : Nat → TokenResponse) :
    List Bool → CallerSt × CallerSt × SharedSt → CallerSt × CallerSt × SharedSt
  | [], st => st
  | b :: rest, (cA, cB, sh) =>
    if b then
      let (cA', sh') := stepCaller a now respAt cA sh
      runSched a now respAt rest (cA', cB, sh')
    else
      let (cB', sh') := stepCaller a now respAt cB sh
      runSched a now respAt rest (cA, cB', sh')

/-- Positional side conditions under which the regex scans of
`inject_athlete_filter` find the spot the structured candidate
designates: when a `WHERE` clause is present, the leftmost word-`WHERE`
match is the clause keyword; with no `WHERE` clause, the uppercased text
has no `WHERE` substring at all and the trailing-clause scan finds
exactly the candidate's tail clause (or nothing). -/
def scanHyp (q : CandQ) : Bool :=
  match q.cond, q.tail with
  | some _, _ => decide (firstWhereIdx (renderQ q) = some (q.cols.length + 24))
  | none, none =>
    !containsSub (str "WHERE") (upperL (renderQ q)) &&
      decide (firstClauseIdx (renderQ q) = none)
  | none, some _ =>
    !containsSub (str "WHERE") (upperL (renderQ q)) &&
      decide (firstClauseIdx (renderQ q) = some (q.cols.length + 23))

/-- Sample rows and inputs used by the concrete witnesses below. -/
def actA : Activity :=
  ⟨101, 1, "morning run", 5000, 1500, 1600, 50, "Run", "2024-01-01"⟩

def actB : Activity :=
  ⟨202, 2, "evening ride", 20000, 3000, 3100, 200, "Ride", "2024-01-02"⟩

def tok0 : UserToken := ⟨5, "oldAccess", "oldRefresh", 100⟩

def fetch0 : FetchedActivity :=
  ⟨202, "evening ride", 20000, 3000, 3100, 200, "Ride", "2024-01-02"⟩

def respSeq : Nat → TokenResponse
  | 0 => ⟨"accessA", "refreshA", 900⟩
  | _ => ⟨"accessB", "refreshB", 950⟩

def c9Init : CallerSt × CallerSt × SharedSt :=
  (⟨0, none, none⟩, ⟨0, none, none⟩, ⟨[tok0], 0⟩)

def c9Sched : List Bool :=
  [true, false, true, true, true, true, false, false, false, false]

end StravaTalk

namespace StravaTalk

/-- The aggregate and row-level branches are the same function: the
source duplicates the code verbatim. -/
lemma branchesEq : aggregateBranch = rowLevelBranch := rfl

lemma upperL_append (a b : List Char) : upperL (a ++ b) = upperL a ++ upperL b :=
  List.map_append _ a b

lemma lowerL_append (a b : List Char) : lowerL (a ++ b) = lowerL a ++ lowerL b :=
  List.map_append _ a b

/-- A planted occurrence makes `containsSub` true. -/
lemma containsSub_of_append (p A B : List Char) :
    containsSub p (A ++ (p ++ B)) = true := by
  unfold containsSub
  rw [List.any_eq_true]
  refine ⟨A.length, List.mem_range.2 ?_, ?_⟩
  · simp [List.length_append]
    omega
  · unfold isSubAt
    rw [List.drop_left, List.take_left]
    exact beq_self_eq_true p

lemma containsSub_of_eq (p s A B : List Char) (h : s = A ++ (p ++ B)) :
    containsSub p s = true := by
  rw [h]; exact containsSub_of_append p A B

/-- Surgery of `rowLevelBranch` when the leftmost word-`WHERE` is at a
designated position. -/
lemma rowBranch_where (P S : List Char) (t : Nat)
    (hW : firstWhereIdx (P ++ (str "WHERE" ++ S)) = some P.length) :
    rowLevelBranch (P ++ (str "WHERE" ++ S)) t =
      (P ++ (str "WHERE athlete_id = %s AND" ++ S), [t]) := by
  have hc : containsSub (str "WHERE") (upperL (P ++ (str "WHERE" ++ S))) = true := by
    refine containsSub_of_eq _ _ (upperL P) (upperL S) ?_
    rw [upperL_append, upperL_append]
    rfl
  unfold rowLevelBranch
  rw [hc]
  simp only [if_true]
  unfold subWhereOnce
  rw [hW]
  dsimp only
  have htake : (P ++ (str "WHERE" ++ S)).take P.length = P := List.take_left P _
  have hdrop : (P ++ (str "WHERE" ++ S)).drop (P.length + 5) = S := by
    rw [← List.append_assoc]
    have hl : (P ++ str "WHERE").length = P.length + 5 := by
      rw [List.length_append]; rfl
    rw [← hl, List.drop_left]
  rw [htake, hdrop]
  rw [List.append_assoc]

/-- Surgery of `rowLevelBranch` with no `WHERE` substring and no
trailing-clause match: the predicate is appended. -/
lemma rowBranch_append (s : List Char) (t : Nat)
    (hNoW : containsSub (str "WHERE") (upperL s) = false)
    (hNoC : firstClauseIdx s = none) :
    rowLevelBranch s t = (s ++ str " WHERE athlete_id = %s", [t]) := by
  unfold rowLevelBranch
  rw [hNoW, hNoC]
  simp

/-- Surgery of `rowLevelBranch` with no `WHERE` substring and the
trailing-clause scan matching at a designated position: the predicate is
inserted there. -/
lemma rowBranch_insert (A B : List Char) (t : Nat)
    (hNoW : containsSub (str "WHERE") (upperL (A ++ B)) = false)
    (hC : firstClauseIdx (A ++ B) = some A.length) :
    rowLevelBranch (A ++ B) t =
      (A ++ (str " WHERE athlete_id = %s" ++ B), [t]) := by
  unfold rowLevelBranch
  rw [hNoW, hC]
  simp only [Bool.false_eq_true, if_false]
  rw [List.take_left, List.drop_left, List.append_assoc]

lemma isPrefixOf_upper_select (R : List Char) :
    (str "SELECT").isPrefixOf (upperL (str "SELECT " ++ R)) = true := by
  rw [upperL_append]
  rfl

/-- `inject_athlete_filter` on the rendered text of a structured
candidate performs exactly the structured insertion `injQ` and emits the
athlete id as the single bound parameter.  Hypotheses: a nonzero (truthy)
athlete id, text already clean (no surrounding whitespace, no trailing
terminator), and the regex scans landing at the designated positions. -/
lemma inject_renderQ_eq (q : CandQ) (t : Nat) (ht : t ≠ 0)
    (hstrip : strip (renderQ q) = renderQ q)
    (hsemi : rstripSemi (renderQ q) = renderQ q)
    (hscan : scanHyp q = true) :
    inject_athlete_filter (renderQ q) t = (renderQ (injQ q), [t]) := by
  obtain ⟨cols, cond, tail⟩ := q
  have hshape0 : renderQ ⟨cols, cond, tail⟩ =
      str "SELECT " ++ (cols ++ (str " FROM activities" ++
        (condPart cond ++ tailPart tail))) := by
    simp only [renderQ, List.append_assoc]
  have hpre : (str "SELECT").isPrefixOf
      (upperL (renderQ ⟨cols, cond, tail⟩)) = true := by
    rw [hshape0]; exact isPrefixOf_upper_select _
  have hact : containsSub (str "activities")
      (lowerL (renderQ ⟨cols, cond, tail⟩)) = true := by
    refine containsSub_of_eq _ _
      (str "select " ++ (lowerL cols ++ str " from "))
      (lowerL (condPart cond ++ tailPart tail)) ?_
    rw [hshape0]
    simp only [lowerL_append, List.append_assoc]
    rfl
  unfold inject_athlete_filter
  rw [hstrip, hsemi, hpre, hact]
  simp only [ht, decide_False, decide_eq_false, Bool.not_true, Bool.or_self,
    Bool.false_or, Bool.or_false, Bool.false_eq_true, if_false,
    Bool.not_false, if_true]
  rw [branchesEq, ite_self]
  match cond, tail with
  | some c, tail =>
    have hshape : renderQ ⟨cols, some c, tail⟩ =
        (str "SELECT " ++ (cols ++ str " FROM activities ")) ++
          (str "WHERE" ++ (str " " ++ (c ++ tailPart tail))) := by
      simp only [renderQ, condPart, List.append_assoc]
      rfl
    have hlen : (str "SELECT " ++ (cols ++ str " FROM activities ")).length =
        cols.length + 24 := by
      simp only [List.length_append]
      have h7 : (str "SELECT ").length = 7 := rfl
      have h17 : (str " FROM activities ").length = 17 := rfl
      omega
    have hW := of_decide_eq_true hscan
    rw [hshape] at hW
    rw [hshape]
    rw [rowBranch_where _ _ t (by rw [hlen]; exact hW)]
    refine congrArg (fun x => (x, [t])) ?_
    simp only [renderQ, injQ, condPart, List.append_assoc]
    rfl
  | none, none =>
    simp only [scanHyp] at hscan
    rw [Bool.and_eq_true] at hscan
    have hNoW : containsSub (str "WHERE")
        (upperL (renderQ ⟨cols, none, none⟩)) = false := by
      have h := hscan.1
      rwa [Bool.not_eq_true'] at h
    have hNoC := of_decide_eq_true hscan.2
    rw [rowBranch_append _ t hNoW hNoC]
    refine congrArg (fun x => (x, [t])) ?_
    simp only [renderQ, injQ, condPart, tailPart, List.append_assoc,
      List.append_nil]
    rfl
  | none, some tl =>
    simp only [scanHyp] at hscan
    rw [Bool.and_eq_true] at hscan
    have hshape : renderQ ⟨cols, none, some tl⟩ =
        (str "SELECT " ++ (cols ++ str " FROM activities")) ++ (' ' :: tl) := by
      simp only [renderQ, condPart, tailPart, List.append_assoc]
      rfl
    have hlen : (str "SELECT " ++ (cols ++ str " FROM activities")).length =
        cols.length + 23 := by
      simp only [List.length_append]
      have h7 : (str "SELECT ").length = 7 := rfl
      have h16 : (str " FROM activities").length = 16 := rfl
      omega
    have hNoW : containsSub (str "WHERE")
        (upperL (renderQ ⟨cols, none, some tl⟩)) = false := by
      have h := hscan.1
      rwa [Bool.not_eq_true'] at h
    have hC := of_decide_eq_true hscan.2
    rw [hshape] at hNoW hC
    rw [hshape]
    rw [rowBranch_insert _ _ t hNoW (by rw [hlen]; exact hC)]
    refine congrArg (fun x => (x, [t])) ?_
    simp only [renderQ, injQ, condPart, tailPart, List.append_assoc]
    rfl

/-- When the last statement is a `SELECT`, a successful run always
produces a result set (`cursor.description` is set). -/
lemma runStmts_lastSelect (ov : List Char → Activity → Bool) :
    ∀ (bound : List Stmt) (st : TableSt),
      lastIsSelectL bound = true →
      ∀ r, runStmts ov st bound = some r → r.2.isSome = true
  | [], _, h => by simp [lastIsSelectL] at h
  | [stmt], st, h => by
    intro r hr
    match stmt, h with
    | Stmt.select c d, _ =>
      match st, hr with
      | some rows, hr =>
        simp only [runStmts, runStmt] at hr
        injection hr with h2
        rw [← h2]
        rfl
    | Stmt.deleteAll c, h => simp [lastIsSelectL] at h
    | Stmt.dropTable, h => simp [lastIsSelectL] at h
  | s1 :: s2 :: rest, st, h => by
    intro r hr
    have hlast : lastIsSelectL (s2 :: rest) = true := by
      unfold lastIsSelectL at h ⊢
      rwa [List.getLast?_cons_cons] at h
    simp only [runStmts] at hr
    match hst : runStmt ov st s1 with
    | none => rw [hst] at hr; exact absurd hr (by simp)
    | some (st', _) =>
      rw [hst] at hr
      exact runStmts_lastSelect ov (s2 :: rest) st' hlast r hr

end StravaTalk

namespace StravaTalk

/-- C3 counterexample: a candidate with a trailing
`; DROP TABLE activities;` is not rejected anywhere: the rewriter strips
the final terminator, injects the filter into the first statement, and
the executor runs both statements; the `DROP` is the last statement, so
the transaction is committed and the table is gone. -/
theorem C3_counterexample :
    execute_sql_query
        (str "SELECT * FROM activities WHERE type='Run'; DROP TABLE activities;")
        1 [] [actB] (fun _ _ => true) = ⟨true, none, none⟩ ∧
    (none : TableSt) ≠ some [actB] := by
  constructor <;> decide

/-- C3 (amended): neither `inject_athlete_filter` nor `execute_sql_query`
performs any validation or rejection; there is no ValidationError path.
A multi-statement candidate with a trailing `; DROP TABLE activities;`
reaches the executor rewritten (filter injected into the first
statement's `WHERE`), and over every database state the `DROP` executes
and is committed, leaving the table dropped. -/
theorem C3_theorem (db : List Activity) (ov : List Char → Activity → Bool) :
    execute_sql_query
        (str "SELECT * FROM activities WHERE type='Run'; DROP TABLE activities;")
        1 [] db ov = ⟨true, none, none⟩ := rfl

/-- C4 counterexample: `execute_sql_query` does not run read-only: a
`DELETE` statement (no result set, so the source calls `conn.commit()`)
changes the database state. -/
theorem C4_counterexample :
    execute_sql_query (str "DELETE FROM activities") 0 [] [actB]
        (fun _ _ => true) = ⟨true, none, some []⟩ ∧
    some ([] : List Activity) ≠ some [actB] := by
  constructor <;> decide

/-- C4 (amended): the transaction is not read-only and DDL/DML is
committed (counterexample above); what holds is: whenever the
parameter-bound statement list the call will run ends in a `SELECT`, the
cursor has a description, the source never calls `conn.commit()`, and
closing the connection rolls the transaction back — so the database
state after `execute_sql_query` equals the state before (this also
covers every error path, which rolls back). -/
theorem C4_theorem (sql : List Char) (athleteId : Nat)
    (queryParams : List Nat) (db : List Activity)
    (ov : List Char → Activity → Bool)
    (h : lastIsSelect (boundPipeline sql athleteId queryParams) = true) :
    (execute_sql_query sql athleteId queryParams db ov).db = some db := by
  unfold execute_sql_query
  unfold boundPipeline at h
  dsimp only
  cases hp : pipelineParse (injectStep sql athleteId).1 with
  | none => rfl
  | some stmts =>
    rw [hp] at h
    dsimp only at h
    dsimp only
    cases hb : bindStmts stmts (queryParams ++ (injectStep sql athleteId).2) with
    | none => rfl
    | some bound =>
      rw [hb] at h
      dsimp only
      cases hr : runStmts ov (some db) bound with
      | none => rfl
      | some rpair =>
        have hdesc := runStmts_lastSelect ov bound (some db) h rpair hr
        obtain ⟨st', desc⟩ := rpair
        dsimp only
        cases desc with
        | none => exact absurd hdesc (by simp)
        | some rows => rfl

/-- C4 witness: a single plain `SELECT` call leaves the database
unchanged. -/
theorem C4_witness :
    lastIsSelect (boundPipeline (str "SELECT * FROM activities") 1 []) = true ∧
    (execute_sql_query (str "SELECT * FROM activities") 1 [] [actB]
        (fun _ _ => true)).db = some [actB] :=
  ⟨by decide, C4_theorem (str "SELECT * FROM activities") 1 [] [actB]
    (fun _ _ => true) (by decide)⟩

/-- C5 counterexample: the insertion policy as claimed fails when the
candidate has no `WHERE` clause but contains `WHERE` inside a longer
word: `SELECT anywhere FROM activities` should (per the claim) get
`WHERE athlete_id = %s` appended, but the substring test `'WHERE' in
sql.upper()` fires on `ANYWHERE`, the word-boundary `re.sub` then finds
nothing, and the query is returned without any tenant predicate (while
still reporting the athlete parameter). -/
theorem C5_counterexample :
    inject_athlete_filter (str "SELECT anywhere FROM activities") 42 =
      (str "SELECT anywhere FROM activities", [42]) ∧
    (inject_athlete_filter (str "SELECT anywhere FROM activities") 42).1 ≠
      str "SELECT anywhere FROM activities WHERE athlete_id = %s" := by
  constructor <;> decide

/-- C5 (amended): the claimed insertion policy holds with the proviso
that the `WHERE`-present test is the substring test on the uppercased
text (not the presence of a `WHERE` clause) and that the word-boundary
scans land at the clause positions (`scanHyp`): with a `WHERE` clause,
`athlete_id = %s AND` is prepended immediately after the keyword;
otherwise `WHERE athlete_id = %s` is inserted immediately before the
trailing `ORDER BY`/`GROUP BY`/`HAVING`/`LIMIT` clause, or appended when
none exists; the tenant id is emitted as the single bound parameter,
never interpolated.  (The spec's `tenant_id = ?` names the source's
`athlete_id = %s`.)  The claim's example scenario is the witness. -/
theorem C5_theorem (q : CandQ) (t : Nat) (ht : t ≠ 0)
    (hstrip : strip (renderQ q) = renderQ q)
    (hsemi : rstripSemi (renderQ q) = renderQ q)
    (hscan : scanHyp q = true) :
    inject_athlete_filter (renderQ q) t = (renderQ (injQ q), [t]) :=
  inject_renderQ_eq q t ht hstrip hsemi hscan

/-- C5 witness: the claim's example — `SELECT COUNT(*) FROM activities
WHERE type='Run'` for tenant 42 rewrites to `SELECT COUNT(*) FROM
activities WHERE athlete_id = %s AND type='Run'` with parameters
`(42,)`. -/
theorem C5_witness :
    scanHyp ⟨str "COUNT(*)", some (str "type='Run'"), none⟩ = true ∧
    inject_athlete_filter
        (str "SELECT COUNT(*) FROM activities WHERE type='Run'") 42 =
      (str "SELECT COUNT(*) FROM activities WHERE athlete_id = %s AND type='Run'",
        [42]) := by
  refine ⟨by decide, ?_⟩
  exact C5_theorem ⟨str "COUNT(*)", some (str "type='Run'"), none⟩ 42
    (by decide) (by decide) (by decide) (by decide)

/-- C10: the aggregate branch and the row-level branch of
`inject_athlete_filter` are extensionally equal — the aggregate
classification has no observable effect on the output (the source
duplicates the branch code verbatim). -/
theorem C10_theorem (s : List Char) (a : Nat) :
    aggregateBranch s a = rowLevelBranch s a := by
  rw [branchesEq]

end StravaTalk

namespace StravaTalk

/-- After an upsert, a row with the upserted id is present. -/
lemma upsert_mem_key (db : List Activity) (r : Activity) :
    (upsertActivity db r).any (fun x => x.id == r.id) = true := by
  unfold upsertActivity
  by_cases h : db.any (fun x => x.id == r.id) = true
  · rw [if_pos h]
    rw [List.any_eq_true] at h ⊢
    obtain ⟨x, hx, hxid⟩ := h
    exact ⟨r, List.mem_map.2 ⟨x, hx, by rw [if_pos hxid]⟩, beq_self_eq_true _⟩
  · rw [if_neg h]
    rw [List.any_append]
    simp

/-- Every row of an upsert result is a fixed point of the replacement
function keyed by the upserted id. -/
lemma upsert_map_self (db : List Activity) (r : Activity) :
    ∀ x ∈ upsertActivity db r, (if x.id == r.id then r else x) = x := by
  intro x hx
  unfold upsertActivity at hx
  by_cases h : db.any (fun y => y.id == r.id) = true
  · rw [if_pos h] at hx
    obtain ⟨y, _, hfy⟩ := List.mem_map.1 hx
    by_cases hid : (y.id == r.id) = true
    · rw [if_pos hid] at hfy
      subst hfy
      simp
    · rw [if_neg hid] at hfy
      subst hfy
      rw [if_neg hid]
  · rw [if_neg h] at hx
    rcases List.mem_append.1 hx with hdb | hr
    · have hxid : (x.id == r.id) = false := by
        by_contra hc
        rw [Bool.not_eq_false] at hc
        exact h (List.any_eq_true.2 ⟨x, hdb, hc⟩)
      rw [hxid]
      simp
    · have : x = r := by simpa using hr
      subst this
      simp

/-- Upserting into a table that already holds the row's key replaces in
place and changes nothing more; in particular upserting is idempotent
when the table already came from the same upsert. -/
lemma upsert_of_fixed (u : List Activity) (r : Activity)
    (hmem : u.any (fun x => x.id == r.id) = true)
    (hself : ∀ x ∈ u, (if x.id == r.id then r else x) = x) :
    upsertActivity u r = u := by
  unfold upsertActivity
  rw [if_pos hmem]
  exact (List.map_congr_left hself).trans (List.map_id u)

/-- Upserting yields exactly one row with the upserted key, given the
table's key-uniqueness invariant. -/
lemma upsert_count (db : List Activity) (r : Activity)
    (h : db.countP (fun x => x.id == r.id) ≤ 1) :
    (upsertActivity db r).countP (fun x => x.id == r.id) = 1 := by
  have hcongr : ∀ (l : List Activity), l.countP
      ((fun x => x.id == r.id) ∘ fun x => if x.id == r.id then r else x) =
      l.countP (fun x => x.id == r.id) := by
    intro l
    induction l with
    | nil => rfl
    | cons y ys ih =>
      rw [List.countP_cons, List.countP_cons, ih]
      by_cases hy : (y.id == r.id) = true
      · rw [Function.comp_apply, if_pos hy, beq_self_eq_true, hy]
      · rw [Function.comp_apply, if_neg hy]
  unfold upsertActivity
  by_cases hany : db.any (fun x => x.id == r.id) = true
  · rw [if_pos hany]
    rw [List.countP_map]
    rw [hcongr]
    have hpos : 0 < db.countP (fun x => x.id == r.id) := by
      rw [List.countP_pos_iff]
      obtain ⟨x, hx, hxid⟩ := List.any_eq_true.1 hany
      exact ⟨x, hx, hxid⟩
    omega
  · rw [if_neg hany]
    rw [List.countP_append]
    have h0 : db.countP (fun x => x.id == r.id) = 0 := by
      rw [List.countP_eq_zero]
      intro x hx hc
      exact hany (List.any_eq_true.2 ⟨x, hx, hc⟩)
    rw [h0]
    simp

/-- C6: applying the same activity `create` event twice (same fetched
resource, same owner) is idempotent and leaves exactly one row keyed by
the record id, with the same field values as applying it once.  The
hypothesis is the table's primary-key invariant (at most one row per
id). -/
theorem C6_theorem (db : List Activity) (act : FetchedActivity)
    (ownerId : Nat)
    (hkey : db.countP (fun x => x.id == act.id) ≤ 1) :
    handle_activity_create (handle_activity_create db act ownerId) act
        ownerId = handle_activity_create db act ownerId ∧
    (handle_activity_create db act ownerId).countP
        (fun x => x.id == act.id) = 1 := by
  constructor
  · exact upsert_of_fixed _ _ (upsert_mem_key db (activityRow act ownerId))
      (upsert_map_self db (activityRow act ownerId))
  · exact upsert_count db (activityRow act ownerId) hkey

/-- C6 witness: replaying a create for a fresh id into a one-row table. -/
theorem C6_witness :
    ([actA].countP (fun x => x.id == fetch0.id) ≤ 1) ∧
    handle_activity_create (handle_activity_create [actA] fetch0 2) fetch0 2 =
      handle_activity_create [actA] fetch0 2 ∧
    (handle_activity_create [actA] fetch0 2).countP
        (fun x => x.id == fetch0.id) = 1 :=
  ⟨by decide, (C6_theorem [actA] fetch0 2 (by decide)).1,
    (C6_theorem [actA] fetch0 2 (by decide)).2⟩

/-- `handle_activity_update` always acts as a row-wise map: matching
rows get exactly the present fields applied, other rows are untouched. -/
lemma update_eq_map (db : List Activity) (aid oid : Nat)
    (u : ActivityUpdates) :
    handle_activity_update db aid oid u =
      db.map (fun x => if x.id == aid && x.athlete_id == oid then
        { x with name := u.title.getD x.name, type := u.type.getD x.type }
      else x) := by
  unfold handle_activity_update
  by_cases hu : (u.title.isNone && u.type.isNone) = true
  · rw [if_pos hu]
    rw [Bool.and_eq_true, Option.isNone_iff_eq_none,
      Option.isNone_iff_eq_none] at hu
    rw [hu.1, hu.2]
    symm
    refine (List.map_congr_left ?_).trans (List.map_id db)
    intro x _
    simp
  · rw [if_neg hu]

/-- C7: the activity patch touches only the `name`/`type` fields of rows
matching `(id, tenant)` and exactly as the present fields dictate; the
table's length, every other field of a matched row, and every
non-matching row are unchanged; when no row matches, the whole table is
unchanged (a patch of a non-existent record is a no-op, and the model is
a total function, so it completes without error). -/
theorem C7_theorem (db : List Activity) (aid oid : Nat)
    (u : ActivityUpdates) :
    (handle_activity_update db aid oid u).length = db.length ∧
    (∀ i (h1 : i < db.length)
        (h2 : i < (handle_activity_update db aid oid u).length),
      (¬((db.get ⟨i, h1⟩).id = aid ∧ (db.get ⟨i, h1⟩).athlete_id = oid) →
        (handle_activity_update db aid oid u).get ⟨i, h2⟩ = db.get ⟨i, h1⟩) ∧
      ((db.get ⟨i, h1⟩).id = aid ∧ (db.get ⟨i, h1⟩).athlete_id = oid →
        ((handle_activity_update db aid oid u).get ⟨i, h2⟩).id =
            (db.get ⟨i, h1⟩).id ∧
        ((handle_activity_update db aid oid u).get ⟨i, h2⟩).athlete_id =
            (db.get ⟨i, h1⟩).athlete_id ∧
        ((handle_activity_update db aid oid u).get ⟨i, h2⟩).distance =
            (db.get ⟨i, h1⟩).distance ∧
        ((handle_activity_update db aid oid u).get ⟨i, h2⟩).moving_time =
            (db.get ⟨i, h1⟩).moving_time ∧
        ((handle_activity_update db aid oid u).get ⟨i, h2⟩).elapsed_time =
            (db.get ⟨i, h1⟩).elapsed_time ∧
        ((handle_activity_update db aid oid u).get ⟨i, h2⟩).total_elevation_gain =
            (db.get ⟨i, h1⟩).total_elevation_gain ∧
        ((handle_activity_update db aid oid u).get ⟨i, h2⟩).start_date =
            (db.get ⟨i, h1⟩).start_date ∧
        ((handle_activity_update db aid oid u).get ⟨i, h2⟩).name =
            u.title.getD (db.get ⟨i, h1⟩).name ∧
        ((handle_activity_update db aid oid u).get ⟨i, h2⟩).type =
            u.type.getD (db.get ⟨i, h1⟩).type)) ∧
    ((∀ x ∈ db, ¬(x.id = aid ∧ x.athlete_id = oid)) →
      handle_activity_update db aid oid u = db) := by
  rw [update_eq_map]
  refine ⟨List.length_map _ _, ?_, ?_⟩
  · intro i h1 h2
    rw [List.get_map]
    constructor
    · intro hnm
      have hcond : ((db.get ⟨i, h1⟩).id == aid &&
          (db.get ⟨i, h1⟩).athlete_id == oid) = false := by
        rw [Bool.and_eq_false_iff]
        by_cases hid : (db.get ⟨i, h1⟩).id = aid
        · right
          rw [beq_eq_false_iff_ne]
          exact fun hath => hnm ⟨hid, hath⟩
        · left
          rw [beq_eq_false_iff_ne]
          exact hid
      rw [hcond]
      simp
    · intro hm
      have hcond : ((db.get ⟨i, h1⟩).id == aid &&
          (db.get ⟨i, h1⟩).athlete_id == oid) = true := by
        rw [Bool.and_eq_true, beq_iff_eq, beq_iff_eq]
        exact hm
      rw [hcond]
      simp
  · intro hall
    refine (List.map_congr_left ?_).trans (List.map_id db)
    intro x hx
    have hcond : (x.id == aid && x.athlete_id == oid) = false := by
      rw [Bool.and_eq_false_iff]
      by_cases hid : x.id = aid
      · right
        rw [beq_eq_false_iff_ne]
        exact fun hath => hall x hx ⟨hid, hath⟩
      · left
        rw [beq_eq_false_iff_ne]
        exact hid
    rw [hcond]
    simp

/-- C7 witness: patching row 101 of athlete 1 with a new title changes
only its name; patching a non-existent record leaves the table as is. -/
theorem C7_witness :
    (handle_activity_update [actA, actB] 101 1
        ⟨some "renamed", none⟩).length = 2 ∧
    ¬((actB.id = 101 : Prop) ∧ actB.athlete_id = 1) ∧
    (handle_activity_update [actA, actB] 101 1
        ⟨some "renamed", none⟩).get ⟨1, by decide⟩ = actB ∧
    ((handle_activity_update [actA, actB] 101 1
        ⟨some "renamed", none⟩).get ⟨0, by decide⟩).name = "renamed" ∧
    (∀ x ∈ [actA, actB], ¬(x.id = 999 ∧ x.athlete_id = 1)) ∧
    handle_activity_update [actA, actB] 999 1 ⟨some "renamed", none⟩ =
      [actA, actB] := by
  refine ⟨(C7_theorem [actA, actB] 101 1 ⟨some "renamed", none⟩).1,
    by decide, ?_, ?_, by decide, ?_⟩
  · exact ((C7_theorem [actA, actB] 101 1 ⟨some "renamed", none⟩).2.1 1
      (by decide) (by decide)).1 (by decide)
  · exact (((C7_theorem [actA, actB] 101 1 ⟨some "renamed", none⟩).2.1 0
      (by decide) (by decide)).2 (by decide)).2.2.2.2.2.2.2.1
  · exact (C7_theorem [actA, actB] 999 1 ⟨some "renamed", none⟩).2.2
      (by decide)

end StravaTalk

namespace StravaTalk

/-- The refresh `UPDATE` rewrites exactly the athlete's row; a
subsequent lookup sees the rotated credential material. -/
lemma findToken_update (db : List UserToken) (a : Nat) (td : TokenResponse)
    (row : UserToken) (h : findToken db a = some row) :
    findToken (updateToken db a td) a =
      some { row with
        access_token := td.access_token
        refresh_token := td.refresh_token
        expires_at := td.expires_at } := by
  unfold findToken at h
  unfold findToken updateToken
  rw [List.find?_map]
  have hfn : ((fun r : UserToken => r.athlete_id == a) ∘ fun r =>
      if r.athlete_id == a then
        { r with
          access_token := td.access_token
          refresh_token := td.refresh_token
          expires_at := td.expires_at }
      else r) = (fun r : UserToken => r.athlete_id == a) := by
    funext r
    by_cases hr : (r.athlete_id == a) = true
    · rw [Function.comp_apply, if_pos hr]
    · rw [Function.comp_apply, if_neg hr]
  rw [hfn, h, Option.map_some']
  have hrowa := List.find?_some h
  rw [if_pos hrowa]

/-- C8: for a tenant with a stored credential: while the stored expiry
is still in the future the stored access token is returned with no
refresh call and no state change; once the expiry has passed, exactly
one refresh exchange happens — on success the access token, refresh
token and expiry are replaced for that tenant in the single `UPDATE`
`updateToken` and the new access token is returned; on failure the call
returns no token (an error) after that one attempt, without retrying. -/
theorem C8_theorem (db : List UserToken) (a : Nat) (now : Int)
    (resp : Option TokenResponse) (row : UserToken)
    (hrow : findToken db a = some row) :
    (now < row.expires_at →
      get_valid_access_token db a now resp =
        (some row.access_token, db, 0)) ∧
    (row.expires_at < now → ∀ td, resp = some td →
      get_valid_access_token db a now resp =
        (some td.access_token, updateToken db a td, 1)) ∧
    (row.expires_at < now → resp = none →
      get_valid_access_token db a now resp = (none, db, 1)) := by
  refine ⟨?_, ?_, ?_⟩
  · intro hfut
    unfold get_valid_access_token
    rw [hrow]
    dsimp only
    rw [if_neg (by omega : ¬row.expires_at < now)]
  · intro hexp td hresp
    subst hresp
    unfold get_valid_access_token refresh_user_token
    rw [hrow]
    dsimp only
    rw [if_pos hexp]
    rw [findToken_update db a td row hrow]
    rfl
  · intro hexp hresp
    subst hresp
    unfold get_valid_access_token refresh_user_token
    rw [hrow]
    dsimp only
    rw [if_pos hexp]

/-- C8 witness: a stored credential expiring at 100 — returned as is at
time 50; refreshed (single exchange, all three fields replaced) at time
200 on success; error with one attempt and no change on failure. -/
theorem C8_witness :
    findToken [tok0] 5 = some tok0 ∧
    get_valid_access_token [tok0] 5 50 none =
      (some "oldAccess", [tok0], 0) ∧
    get_valid_access_token [tok0] 5 200 (some ⟨"accessA", "refreshA", 900⟩) =
      (some "accessA", updateToken [tok0] 5 ⟨"accessA", "refreshA", 900⟩, 1) ∧
    get_valid_access_token [tok0] 5 200 none = (none, [tok0], 1) := by
  refine ⟨by decide, ?_, ?_, ?_⟩
  · exact (C8_theorem [tok0] 5 50 none tok0 (by decide)).1 (by decide)
  · exact (C8_theorem [tok0] 5 200 (some ⟨"accessA", "refreshA", 900⟩) tok0
      (by decide)).2.1 (by decide) ⟨"accessA", "refreshA", 900⟩ rfl
  · exact (C8_theorem [tok0] 5 200 none tok0 (by decide)).2.2 (by decide) rfl

/-- C9 counterexample: the source takes no per-tenant lock and its
refresh `UPDATE` is keyed on `athlete_id` alone, so under the
interleaving in which both callers read the expired credential before
either writes, two network refresh calls are made — not exactly one as
claimed. -/
theorem C9_counterexample :
    (runSched 5 200 respSeq c9Sched c9Init).2.2.calls = 2 ∧
    (runSched 5 200 respSeq c9Sched c9Init).2.2.calls ≠ 1 := by
  constructor <;> decide

/-- C9 (amended): refresh attempts are not serialized: in that
interleaving each caller performs its own network refresh (two calls in
total), the first caller returns the first exchange's token, the second
caller returns its own exchange's token rather than observing the first
caller's result, and the second write overwrites the first in the
store. -/
theorem C9_theorem :
    (runSched 5 200 respSeq c9Sched c9Init).2.2.calls = 2 ∧
    (runSched 5 200 respSeq c9Sched c9Init).1.ret = some (some "accessA") ∧
    (runSched 5 200 respSeq c9Sched c9Init).2.1.ret = some (some "accessB") ∧
    (runSched 5 200 respSeq c9Sched c9Init).2.2.db =
      [⟨5, "accessB", "refreshB", 950⟩] := by
  refine ⟨by decide, by decide, by decide, by decide⟩

end StravaTalk
